import Mathlib

/-
Verification development for the graphiti temporal-knowledge-graph engine.

The repository ships only its deployment files (Dockerfile, docker-compose,
pyproject.toml) and an example notebook; the `graphiti_core` package itself is
not part of the source tree here.  The engine (temporal fact model,
deduplication resolver, temporal conflict resolver, ingestion pipeline and
hybrid search) is therefore modelled from the specification.  The external
language-model and embedding capability, and the scoring internals of the
storage engine, are abstracted as oracle function parameters, exactly as the
specification itself treats them ("treated as a capability").

The one piece of real source code embedded below is `edges_to_facts_string`
from `examples/langgraph-agent/agent.ipynb`.
-/

namespace Graphiti

/-! ## A computable ranking sort

Used wherever the specification asks for "top-K by score" or "rank by fused
score".  Insertion sort is used so that every definition reduces in the
kernel. -/

def insertRanked {α : Type} (le : α → α → Bool) (a : α) : List α → List α
  | [] => [a]
  | b :: bs => if le a b then a :: b :: bs else b :: insertRanked le a bs

def rankSort {α : Type} (le : α → α → Bool) : List α → List α
  | [] => []
  | a :: as => insertRanked le a (rankSort le as)

theorem mem_insertRanked {α : Type} {le : α → α → Bool} {a x : α} {l : List α} :
    x ∈ insertRanked le a l ↔ x = a ∨ x ∈ l := by
  induction l with
  | nil => simp [insertRanked]
  | cons b bs ih =>
    simp only [insertRanked]
    split
    · simp
    · simp only [List.mem_cons, ih]
      tauto

theorem mem_rankSort {α : Type} {le : α → α → Bool} {x : α} {l : List α} :
    x ∈ rankSort le l ↔ x ∈ l := by
  induction l with
  | nil => simp [rankSort]
  | cons a as ih =>
    simp only [rankSort, mem_insertRanked, List.mem_cons, ih]

theorem length_insertRanked {α : Type} {le : α → α → Bool} {a : α} {l : List α} :
    (insertRanked le a l).length = l.length + 1 := by
  induction l with
  | nil => simp [insertRanked]
  | cons b bs ih =>
    simp only [insertRanked]
    split
    · simp
    · simp [ih]

theorem length_rankSort {α : Type} {le : α → α → Bool} {l : List α} :
    (rankSort le l).length = l.length := by
  induction l with
  | nil => simp [rankSort]
  | cons a as ih => simp [rankSort, length_insertRanked, ih]

/-! ## Temporal fact model

Modelled from the spec: section 3 "DATA MODEL" of the specification, standing
in for the missing `graphiti_core` node/edge/episode classes.  Timestamps are
naturals; embedding vectors are opaque integer lists produced by the gateway
oracle. -/

/-- Modelled from the spec: the immutable Episode record of section 3
(identifier, name, body, source description, reference time, ingestion
time). -/
structure Episode where
  uuid : Nat
  name : String
  body : String
  sourceDescription : String
  referenceTime : Nat
  ingestionTime : Nat
deriving Repr, DecidableEq

/-- Modelled from the spec: the EntityNode record of section 3 (identifier,
canonical name, aliases, summary, labels, name embedding, creation time). -/
structure EntityNode where
  uuid : Nat
  name : String
  aliases : List String
  summary : String
  labels : List String
  nameEmbedding : List Int
  createdAt : Nat
deriving Repr, DecidableEq

/-- Modelled from the spec: the EntityEdge ("fact") record of section 3.
`seq` is the ingestion sequence number, the model of "most recently ingested"
used for tie-breaking in the temporal conflict resolver. -/
structure EntityEdge where
  uuid : Nat
  sourceId : Nat
  targetId : Nat
  fact : String
  factEmbedding : List Int
  validAt : Nat
  invalidAt : Option Nat
  expiredAt : Option Nat
  episodeId : Nat
  seq : Nat
deriving Repr, DecidableEq

/-- Modelled from the spec: the queryable graph state: episodes, nodes, edges,
the merge back-references of section 3 ("absorbed into another node, with a
back-reference recorded"), the dedup-fallback counter required by section 4.2
("this fallback must be observable/counted"), and a fresh-identifier
counter. -/
structure GraphState where
  episodes : List Episode
  nodes : List EntityNode
  edges : List EntityEdge
  merged : List (Nat × Nat)
  dedupFallbackCount : Nat
  nextUuid : Nat
deriving Repr, DecidableEq

/-- Modelled from the spec: a candidate entity extracted by the gateway
(section 4.1, extractEntities returns name, type, aliases). -/
structure CandidateEntity where
  name : String
  typ : String
  aliases : List String
deriving Repr, DecidableEq

/-- Modelled from the spec: a candidate relationship extracted by the gateway
(section 4.1, extractEdges returns sourceName, targetName, factText,
optional validAt). -/
structure CandidateEdge where
  sourceName : String
  targetName : String
  factText : String
  validAt : Option Nat
deriving Repr, DecidableEq

/-- Modelled from the spec: the disambiguation answer of section 4.2 step 4,
"new" or "merge with existing-id". -/
inductive DedupDecision where
  | isNew : DedupDecision
  | mergeWith : Nat → DedupDecision
deriving Repr, DecidableEq

/-- Modelled from the spec: the Embedding and Extraction Gateway of section
4.1 together with the storage capability of section 6, as oracles.
`extractEntities`/`extractEdges` return `none` on a terminal ExtractionError
(after the bounded retries of section 5, which are folded into the oracle
outcome); `disambiguate` returns `none` on a DisambiguationFailure;
`similarity` abstracts cosine similarity of embeddings as a scaled natural;
`slotOf` tags a fact text with its relationship-kind slot (section 4.3);
`supersedes` answers whether a new fact text logically supersedes an old one;
`storageOk` is the commit outcome of the storage capability for an episode. -/
structure Gateway where
  embed : String → List Int
  extractEntities : String → Option (List CandidateEntity)
  extractEdges : String → Option (List CandidateEdge)
  similarity : CandidateEntity → EntityNode → Nat
  disambiguate : CandidateEntity → List EntityNode → Option DedupDecision
  slotOf : String → String
  supersedes : String → String → Bool
  storageOk : Nat → Bool

/-- Modelled from the spec: the operator-tunable dedup constants of section
4.2 (similarity floor and top-K), kept as configuration per section 9. -/
structure DedupConfig where
  floor : Nat
  topK : Nat
deriving Repr, DecidableEq

/-! ## Deduplication Resolver (spec section 4.2) -/

/-- Modelled from the spec: section 4.2 step 1, similarity is computed only
against existing entities sharing at least one label/type. -/
def sharesLabel (cand : CandidateEntity) (n : EntityNode) : Bool :=
  n.labels.contains cand.typ

/-- Modelled from the spec: an existing node clears the dedup floor when it
shares a label with the candidate and its similarity reaches the configured
floor (section 4.2 steps 1 and 2). -/
def clearsFloor (gw : Gateway) (cfg : DedupConfig) (cand : CandidateEntity)
    (n : EntityNode) : Bool :=
  sharesLabel cand n && decide (cfg.floor ≤ gw.similarity cand n)

/-- Modelled from the spec: section 4.2 step 2, the top-K existing entities
above the similarity floor, ranked by similarity. -/
def shortlist (gw : Gateway) (cfg : DedupConfig) (cand : CandidateEntity)
    (nodes : List EntityNode) : List EntityNode :=
  (rankSort (fun a b => decide (gw.similarity cand b ≤ gw.similarity cand a))
    (nodes.filter (clearsFloor gw cfg cand))).take cfg.topK

/-- Modelled from the spec: the outcome of the Deduplication Resolver for one
candidate entity.  `freshNode` is step 3 (zero candidates clear the floor);
`confirmedNew` and `mergeInto` are the gateway-confirmed outcomes of step 4;
`fallbackNew` is the DisambiguationFailure fallback of section 4.2. -/
inductive EntityResolution where
  | freshNode : EntityResolution
  | confirmedNew : EntityResolution
  | fallbackNew : EntityResolution
  | mergeInto : Nat → EntityResolution
deriving Repr, DecidableEq

def EntityResolution.isMerge : EntityResolution → Bool
  | .mergeInto _ => true
  | _ => false

/-- Modelled from the spec: the decision procedure of section 4.2 steps 3-4:
an empty shortlist means a new node with no gateway call; a non-empty
shortlist triggers the gateway disambiguation call, whose failure falls back
to "treat as new". -/
def resolveEntity (gw : Gateway) (cfg : DedupConfig) (st : GraphState)
    (cand : CandidateEntity) : EntityResolution :=
  match shortlist gw cfg cand st.nodes with
  | [] => .freshNode
  | s :: ss =>
    match gw.disambiguate cand (s :: ss) with
    | none => .fallbackNew
    | some .isNew => .confirmedNew
    | some (.mergeWith u) => .mergeInto u

/-- Modelled from the spec: creation of a brand-new EntityNode from a
candidate (section 3), embedding the canonical name via the gateway. -/
def mkNode (gw : Gateway) (now : Nat) (uuid : Nat) (cand : CandidateEntity) :
    EntityNode :=
  ⟨uuid, cand.name, cand.aliases, "", [cand.typ], gw.embed cand.name, now⟩

/-- Modelled from the spec: section 4.2 step 5, on a merge decision the alias
sets are unioned onto the surviving node. -/
def absorbAliases (cand : CandidateEntity) (u : Nat) (n : EntityNode) : EntityNode :=
  if n.uuid = u then { n with aliases := (n.aliases ++ cand.aliases).dedup } else n

/-- Modelled from the spec: applying one entity resolution to the graph
state.  A merge updates the surviving node's aliases and returns its
identifier; any "new" outcome creates a fresh node, and the
DisambiguationFailure fallback additionally bumps the observability counter
(section 4.2, "this fallback must be observable/counted"). -/
def applyEntity (gw : Gateway) (cfg : DedupConfig) (now : Nat) (st : GraphState)
    (cand : CandidateEntity) : GraphState × Nat :=
  match resolveEntity gw cfg st cand with
  | .mergeInto u => ({ st with nodes := st.nodes.map (absorbAliases cand u) }, u)
  | .fallbackNew =>
      ({ st with nodes := mkNode gw now st.nextUuid cand :: st.nodes,
                 nextUuid := st.nextUuid + 1,
                 dedupFallbackCount := st.dedupFallbackCount + 1 }, st.nextUuid)
  | _ =>
      ({ st with nodes := mkNode gw now st.nextUuid cand :: st.nodes,
                 nextUuid := st.nextUuid + 1 }, st.nextUuid)

/-! ## Temporal Conflict Resolver (spec section 4.3) -/

/-- Modelled from the spec: section 4.3, candidate superseded facts are the
currently-valid edges "between the same ordered node pair". -/
def samePair (a b : EntityEdge) : Bool :=
  decide (a.sourceId = b.sourceId) && decide (a.targetId = b.targetId)

/-- Modelled from the spec: section 4.3, fact semantics occupying the same
slot, determined via the gateway's relationship-kind tagging. -/
def sameSlot (gw : Gateway) (a b : EntityEdge) : Bool :=
  decide (gw.slotOf a.fact = gw.slotOf b.fact)

/-- Modelled from the spec: the invalidation direction of sections 4.3 and
4.4: an old fact can only be superseded by a new fact that is not earlier,
and a tie on `validAt` is resolved in favour of the most recently ingested
edge (larger ingestion sequence number). -/
def timePrecedes (oldE newE : EntityEdge) : Bool :=
  decide (oldE.validAt < newE.validAt) ||
    (decide (oldE.validAt = newE.validAt) && decide (oldE.seq < newE.seq))

/-- Modelled from the spec: section 4.3, a stored fact is superseded by the
new fact when it is still valid, shares the ordered node pair and the
relationship slot, the gateway confirms logical supersession, and the time
order (with the ingestion-order tie-break) points from old to new. -/
def supersededBy (gw : Gateway) (newE oldE : EntityEdge) : Bool :=
  oldE.invalidAt.isNone && samePair newE oldE && sameSlot gw newE oldE &&
    gw.supersedes newE.fact oldE.fact && timePrecedes oldE newE

/-- Modelled from the spec: section 4.3, a superseded fact gets its
`invalidAt` set to exactly the new fact's `validAt` and its `expiredAt` set
to the current system time; a fact already invalid is skipped (the
`invalidAt.isNone` conjunct of `supersededBy`). -/
def invalidateEdge (gw : Gateway) (now : Nat) (newE oldE : EntityEdge) : EntityEdge :=
  if supersededBy gw newE oldE then
    { oldE with invalidAt := some newE.validAt, expiredAt := some now }
  else oldE

/-- Modelled from the spec: the Temporal Conflict Resolver pass run for one
new edge over the whole stored edge set (section 4.3). -/
def resolveConflicts (gw : Gateway) (now : Nat) (newE : EntityEdge)
    (st : GraphState) : GraphState :=
  { st with edges := st.edges.map (invalidateEdge gw now newE) }

/-! ## Node merge (spec sections 3 and 4.2 step 5) -/

/-- Modelled from the spec: the edge rewrite demanded by the section 3
invariant "a node merge ... must rewrite all edges referencing the absorbed
identifier to the surviving identifier, preserving edge identifiers". -/
def rewriteEndpoint (a b : Nat) (e : EntityEdge) : EntityEdge :=
  { e with sourceId := if e.sourceId = a then b else e.sourceId,
           targetId := if e.targetId = a then b else e.targetId }

/-- Modelled from the spec: merging node `a` into node `b`: the absorbed node
is removed from the live node set, its aliases are unioned onto the survivor
which keeps the earlier creation time (section 4.2 step 5), every edge
referencing `a` is rewritten to `b`, and the back-reference `(a, b)` is
recorded (section 3).  When `a` is not a live node the state is unchanged. -/
def mergeNodes (a b : Nat) (st : GraphState) : GraphState :=
  match st.nodes.find? (fun n => decide (n.uuid = a)) with
  | none => st
  | some na =>
    { st with
      nodes := (st.nodes.filter (fun n => !decide (n.uuid = a))).map (fun n =>
        if n.uuid = b then
          { n with aliases := (n.aliases ++ na.aliases).dedup,
                   createdAt := min n.createdAt na.createdAt }
        else n),
      edges := st.edges.map (rewriteEndpoint a b),
      merged := (a, b) :: st.merged }

/-- Modelled from the spec: direct edge lookup, section 6 `getEdge`. -/
def getEdge (st : GraphState) (u : Nat) : Option EntityEdge :=
  st.edges.find? (fun e => decide (e.uuid = u))

/-! ## Ingestion Pipeline (spec section 4.4) -/

/-- Modelled from the spec: the caller-supplied input of `addEpisode`
(section 6). -/
structure EpisodeInput where
  uuid : Nat
  name : String
  body : String
  sourceDescription : String
  referenceTime : Nat
deriving Repr, DecidableEq

/-- Modelled from the spec: the failed ingestion result of section 7,
carrying the episode identifier and reason. -/
structure IngestFailure where
  episodeId : Nat
  reason : String
deriving Repr, DecidableEq

/-- Modelled from the spec: the Episode record persisted on commit
(section 3). -/
def mkEpisode (now : Nat) (ep : EpisodeInput) : Episode :=
  ⟨ep.uuid, ep.name, ep.body, ep.sourceDescription, ep.referenceTime, now⟩

/-- Modelled from the spec: resolving every candidate node through the
Deduplication Resolver in order (section 4.4 `Extracting → Resolving`),
returning the updated state together with the name-to-final-identifier
mapping used to resolve edge endpoints. -/
def ingestEntities (gw : Gateway) (cfg : DedupConfig) (now : Nat) :
    List CandidateEntity → GraphState → GraphState × List (String × Nat)
  | [], st => (st, [])
  | c :: cs, st =>
    let r := applyEntity gw cfg now st c
    let rest := ingestEntities gw cfg now cs r.1
    (rest.1, (c.name, r.2) :: rest.2)

/-- Modelled from the spec: creation of an EntityEdge from an extracted
candidate (section 3): `validAt` defaults to the episode reference time when
the extraction supplied none; `invalidAt`/`expiredAt` start unset; the
ingestion sequence number is the allocation counter. -/
def mkEdge (gw : Gateway) (ep : EpisodeInput) (uuid s t : Nat)
    (c : CandidateEdge) : EntityEdge :=
  ⟨uuid, s, t, c.factText, gw.embed c.factText, c.validAt.getD ep.referenceTime,
    none, none, ep.uuid, uuid⟩

/-- Modelled from the spec: endpoint resolution of candidate edges against
the name-to-identifier mapping produced by entity resolution (section 4.4). -/
def lookupId (m : List (String × Nat)) (s : String) : Option Nat :=
  (m.find? (fun p => decide (p.1 = s))).map (fun p => p.2)

/-- Modelled from the spec: section 4.4, for every candidate edge resolve its
endpoints to final node identifiers, create the edge and run Temporal
Conflict Resolution against the stored facts; a candidate whose endpoints
cannot be resolved is dropped. -/
def ingestEdges (gw : Gateway) (ep : EpisodeInput) (now : Nat)
    (m : List (String × Nat)) : List CandidateEdge → GraphState → GraphState
  | [], st => st
  | c :: cs, st =>
    match lookupId m c.sourceName, lookupId m c.targetName with
    | some s, some t =>
      let e := mkEdge gw ep st.nextUuid s t c
      let st1 := resolveConflicts gw now e st
      ingestEdges gw ep now m cs
        { st1 with edges := e :: st1.edges, nextUuid := st1.nextUuid + 1 }
    | _, _ => ingestEdges gw ep now m cs st

/-- Modelled from the spec: the staged post-commit state of one episode:
episode record, resolved nodes and resolved/invalidated edges
(section 4.4 `Resolving → Committing`). -/
def stageEpisode (gw : Gateway) (cfg : DedupConfig) (now : Nat)
    (ep : EpisodeInput) (ents : List CandidateEntity) (lnks : List CandidateEdge)
    (st : GraphState) : GraphState :=
  let st1 := { st with episodes := st.episodes ++ [mkEpisode now ep] }
  let r := ingestEntities gw cfg now ents st1
  ingestEdges gw ep now r.2 lnks r.1

/-- Modelled from the spec: the per-episode ingestion state machine of
section 4.4.  Extraction failure (terminal after the bounded retries folded
into the gateway oracle) or a terminal storage failure yields the failed
ingestion result and leaves the committed state untouched; otherwise the
staged state is committed as one atomic unit. -/
def runIngestion (gw : Gateway) (cfg : DedupConfig) (now : Nat)
    (ep : EpisodeInput) (st : GraphState) : GraphState × Option IngestFailure :=
  match gw.extractEntities ep.body with
  | none => (st, some ⟨ep.uuid, "ExtractionError"⟩)
  | some ents =>
    match gw.extractEdges ep.body with
    | none => (st, some ⟨ep.uuid, "ExtractionError"⟩)
    | some lnks =>
      let staged := stageEpisode gw cfg now ep ents lnks st
      if gw.storageOk ep.uuid then (staged, none)
      else (st, some ⟨ep.uuid, "StorageConflict"⟩)

/-! ## Hybrid Search Engine (spec section 4.6) -/

/-- Modelled from the spec: the retrieval and scoring capabilities behind the
Hybrid Search Engine, as oracles: `relevant` is membership in the union of
the full-text and vector-similarity candidate sets (section 4.6 step 1);
`fusedScore` is the reciprocal-rank-fusion combined score, including the
optional center-node graph-distance signal (steps 2-3). -/
structure SearchOracle where
  relevant : String → EntityEdge → Bool
  fusedScore : String → Option Nat → EntityEdge → Nat

/-- Modelled from the spec: the temporal filter of section 4.6 step 4
together with the temporal-correctness requirement of section 8: an edge is
returned only when it was already valid at the as-of time (a fact whose
`validAt` is after the as-of time must not be returned) and not yet invalid
at it (edges whose `invalidAt` is set and at or before the as-of time are
filtered out). -/
def temporallyLive (asOf : Nat) (e : EntityEdge) : Bool :=
  decide (e.validAt ≤ asOf) &&
    match e.invalidAt with
    | none => true
    | some t => decide (asOf < t)

/-- Modelled from the spec: descending order by fused score, ties broken by
more-recent `validAt` (section 4.6 step 3). -/
def rankEdges (so : SearchOracle) (q : String) (center : Option Nat)
    (l : List EntityEdge) : List EntityEdge :=
  rankSort (fun a b =>
    decide (so.fusedScore q center b < so.fusedScore q center a) ||
      (decide (so.fusedScore q center a = so.fusedScore q center b) &&
        decide (b.validAt ≤ a.validAt))) l

/-- Modelled from the spec: the search operation of sections 4.6 and 6:
candidate retrieval, temporal filtering, fused ranking, and the
top-`numResults` cut.  The default as-of time is "now" (section 4.6
step 4). -/
def search (so : SearchOracle) (st : GraphState) (q : String)
    (center : Option Nat) (numResults : Nat) (asOf : Option Nat) (now : Nat) :
    List EntityEdge :=
  (rankEdges so q center
    (st.edges.filter (fun e => so.relevant q e && temporallyLive (asOf.getD now) e))).take
    numResults

/-! ## The operations of the engine, and reachable states -/

/-- Modelled from the spec: the mutating operations of the engine: episode
ingestion (section 4.4) and node merging (sections 3 and 4.2 step 5); search
never mutates the graph (section 4.6). -/
inductive Op where
  | ingest : Gateway → DedupConfig → Nat → EpisodeInput → Op
  | mergeOp : Nat → Nat → Op

/-- Modelled from the spec: applying one operation to the graph state; a
failed ingestion leaves the state untouched (section 4.4). -/
def applyOp (st : GraphState) : Op → GraphState
  | .ingest gw cfg now ep => (runIngestion gw cfg now ep st).1
  | .mergeOp a b => mergeNodes a b st

/-- Modelled from the spec: the empty graph, the state after `clearData`
(section 4.5). -/
def initialState : GraphState := ⟨[], [], [], [], 0, 0⟩

/-- Modelled from the spec: the state reached by a sequence of operations
from the empty graph. -/
def applyOps (ops : List Op) : GraphState := ops.foldl applyOp initialState

/-! ## Source-embedded notebook helper -/

/-- Embedded from `examples/langgraph-agent/agent.ipynb`: the
`edges_to_facts_string` helper, which joins the `fact` field of every
returned edge into one bullet string. -/
def edges_to_facts_string (entities : List EntityEdge) : String :=
  "-" ++ String.intercalate "\n- " (entities.map (fun edge => edge.fact))

/-! ## Helper lemmas -/

theorem mem_shortlist {gw : Gateway} {cfg : DedupConfig} {cand : CandidateEntity}
    {nodes : List EntityNode} {n : EntityNode}
    (h : n ∈ shortlist gw cfg cand nodes) :
    n ∈ nodes ∧ clearsFloor gw cfg cand n = true := by
  unfold shortlist at h
  have h1 := List.mem_of_mem_take h
  rw [mem_rankSort] at h1
  exact List.mem_filter.mp h1

/-- Two edge records agreeing on every field except possibly `invalidAt` and
`expiredAt`. -/
def sameCore (x y : EntityEdge) : Prop :=
  y.uuid = x.uuid ∧ y.sourceId = x.sourceId ∧ y.targetId = x.targetId
  ∧ y.fact = x.fact ∧ y.factEmbedding = x.factEmbedding ∧ y.validAt = x.validAt
  ∧ y.episodeId = x.episodeId ∧ y.seq = x.seq

/-- Two edge records agreeing on identifier, fact content, embedding,
`validAt`, producing episode and ingestion sequence (endpoints may differ,
as a node merge rewrites them). -/
def sameFactCore (x y : EntityEdge) : Prop :=
  y.uuid = x.uuid ∧ y.fact = x.fact ∧ y.factEmbedding = x.factEmbedding
  ∧ y.validAt = x.validAt ∧ y.episodeId = x.episodeId ∧ y.seq = x.seq

theorem sameCore_refl (x : EntityEdge) : sameCore x x :=
  ⟨rfl, rfl, rfl, rfl, rfl, rfl, rfl, rfl⟩

theorem sameCore_trans {x y z : EntityEdge} (h1 : sameCore x y)
    (h2 : sameCore y z) : sameCore x z := by
  obtain ⟨a1, a2, a3, a4, a5, a6, a7, a8⟩ := h1
  obtain ⟨b1, b2, b3, b4, b5, b6, b7, b8⟩ := h2
  exact ⟨b1.trans a1, b2.trans a2, b3.trans a3, b4.trans a4, b5.trans a5,
    b6.trans a6, b7.trans a7, b8.trans a8⟩

theorem sameCore_to_factCore {x y : EntityEdge} (h : sameCore x y) :
    sameFactCore x y :=
  ⟨h.1, h.2.2.2.1, h.2.2.2.2.1, h.2.2.2.2.2.1, h.2.2.2.2.2.2.1,
    h.2.2.2.2.2.2.2⟩

theorem sameFactCore_refl (x : EntityEdge) : sameFactCore x x :=
  ⟨rfl, rfl, rfl, rfl, rfl, rfl⟩

theorem invalidateEdge_sameCore (gw : Gateway) (now : Nat)
    (newE e : EntityEdge) : sameCore e (invalidateEdge gw now newE e) := by
  unfold invalidateEdge
  split
  · exact ⟨rfl, rfl, rfl, rfl, rfl, rfl, rfl, rfl⟩
  · exact sameCore_refl e

theorem rewriteEndpoint_sameFactCore (a b : Nat) (e : EntityEdge) :
    sameFactCore e (rewriteEndpoint a b e) :=
  ⟨rfl, rfl, rfl, rfl, rfl, rfl⟩

theorem applyEntity_edges (gw : Gateway) (cfg : DedupConfig) (now : Nat)
    (st : GraphState) (c : CandidateEntity) :
    (applyEntity gw cfg now st c).1.edges = st.edges := by
  unfold applyEntity
  split <;> rfl

theorem ingestEntities_edges (gw : Gateway) (cfg : DedupConfig) (now : Nat)
    (cs : List CandidateEntity) (st : GraphState) :
    (ingestEntities gw cfg now cs st).1.edges = st.edges := by
  induction cs generalizing st with
  | nil => rfl
  | cons c cs ih =>
    show (ingestEntities gw cfg now cs (applyEntity gw cfg now st c).1).1.edges
        = st.edges
    rw [ih, applyEntity_edges]

theorem ingestEdges_frame (gw : Gateway) (ep : EpisodeInput) (now : Nat)
    (m : List (String × Nat)) (cs : List CandidateEdge) (st : GraphState)
    (e : EntityEdge) (he : e ∈ st.edges) :
    ∃ e2 ∈ (ingestEdges gw ep now m cs st).edges, sameCore e e2 := by
  induction cs generalizing st e with
  | nil => exact ⟨e, he, sameCore_refl e⟩
  | cons c cs ih =>
    show ∃ e2 ∈ (match lookupId m c.sourceName, lookupId m c.targetName with
      | some s, some t =>
        let e0 := mkEdge gw ep st.nextUuid s t c
        let st1 := resolveConflicts gw now e0 st
        ingestEdges gw ep now m cs
          { st1 with edges := e0 :: st1.edges, nextUuid := st1.nextUuid + 1 }
      | _, _ => ingestEdges gw ep now m cs st).edges, sameCore e e2
    split
    · next s t hs ht =>
      have h1 : invalidateEdge gw now (mkEdge gw ep st.nextUuid s t c) e
          ∈ (resolveConflicts gw now (mkEdge gw ep st.nextUuid s t c) st).edges :=
        List.mem_map_of_mem _ he
      have h2 : invalidateEdge gw now (mkEdge gw ep st.nextUuid s t c) e
          ∈ mkEdge gw ep st.nextUuid s t c
            :: (resolveConflicts gw now (mkEdge gw ep st.nextUuid s t c) st).edges :=
        List.mem_cons_of_mem _ h1
      obtain ⟨e2, he2, hcore⟩ :=
        ih { resolveConflicts gw now (mkEdge gw ep st.nextUuid s t c) st with
              edges := mkEdge gw ep st.nextUuid s t c
                :: (resolveConflicts gw now
                      (mkEdge gw ep st.nextUuid s t c) st).edges,
              nextUuid := (resolveConflicts gw now
                  (mkEdge gw ep st.nextUuid s t c) st).nextUuid + 1 }
          (invalidateEdge gw now (mkEdge gw ep st.nextUuid s t c) e) h2
      exact ⟨e2, he2,
        sameCore_trans (invalidateEdge_sameCore gw now _ e) hcore⟩
    · exact ih st e he

theorem stageEpisode_frame (gw : Gateway) (cfg : DedupConfig) (now : Nat)
    (ep : EpisodeInput) (ents : List CandidateEntity)
    (lnks : List CandidateEdge) (st : GraphState) (e : EntityEdge)
    (he : e ∈ st.edges) :
    ∃ e2 ∈ (stageEpisode gw cfg now ep ents lnks st).edges, sameCore e e2 := by
  unfold stageEpisode
  apply ingestEdges_frame
  rw [ingestEntities_edges]
  exact he

theorem runIngestion_frame (gw : Gateway) (cfg : DedupConfig) (now : Nat)
    (ep : EpisodeInput) (st : GraphState) (e : EntityEdge)
    (he : e ∈ st.edges) :
    ∃ e2 ∈ (runIngestion gw cfg now ep st).1.edges, sameCore e e2 := by
  unfold runIngestion
  split
  · exact ⟨e, he, sameCore_refl e⟩
  · split
    · exact ⟨e, he, sameCore_refl e⟩
    · split
      · exact stageEpisode_frame gw cfg now ep _ _ st e he
      · exact ⟨e, he, sameCore_refl e⟩

theorem mergeNodes_frame (a b : Nat) (st : GraphState) (e : EntityEdge)
    (he : e ∈ st.edges) :
    ∃ e2 ∈ (mergeNodes a b st).edges, sameFactCore e e2 := by
  unfold mergeNodes
  split
  · exact ⟨e, he, sameFactCore_refl e⟩
  · exact ⟨rewriteEndpoint a b e, List.mem_map_of_mem _ he,
      rewriteEndpoint_sameFactCore a b e⟩

/-! ## Claim theorems -/

/-- C3: for every candidate entity processed by the Deduplication Resolver,
if zero existing entities clear the similarity floor the candidate becomes a
new node, and the resolver merges the candidate with an existing node only
when at least one existing entity clears the floor and the gateway
disambiguation call confirms the merge — never on embedding similarity
alone. -/
theorem dedup_no_silent_merge (gw : Gateway) (cfg : DedupConfig)
    (st : GraphState) (cand : CandidateEntity) (u : Nat) :
    (shortlist gw cfg cand st.nodes = [] →
      resolveEntity gw cfg st cand = .freshNode)
    ∧ (resolveEntity gw cfg st cand = .mergeInto u →
        (∃ n, n ∈ st.nodes ∧ clearsFloor gw cfg cand n = true)
        ∧ gw.disambiguate cand (shortlist gw cfg cand st.nodes)
            = some (.mergeWith u)) := by
  constructor
  · intro h
    unfold resolveEntity
    rw [h]
  · intro h
    unfold resolveEntity at h
    split at h
    · cases h
    next s ss heq =>
      split at h
      · cases h
      · cases h
      next v hd =>
        injection h with hvu
        subst hvu
        have hs : s ∈ shortlist gw cfg cand st.nodes := by
          rw [heq]; exact List.mem_cons_self s ss
        have hm := mem_shortlist hs
        exact ⟨⟨s, hm.1, hm.2⟩, by rw [heq]; exact hd⟩

/-- C9: if the gateway disambiguation call fails during deduplication, the
resolver does not surface an error and does not merge: the candidate is
treated as a new entity (a fresh node is created and its fresh identifier
returned), and the fallback is counted on the observability counter. -/
theorem dedup_fallback_on_gateway_failure (gw : Gateway) (cfg : DedupConfig)
    (now : Nat) (st : GraphState) (cand : CandidateEntity)
    (hsl : shortlist gw cfg cand st.nodes ≠ [])
    (hfail : gw.disambiguate cand (shortlist gw cfg cand st.nodes) = none) :
    resolveEntity gw cfg st cand = .fallbackNew
    ∧ (applyEntity gw cfg now st cand).1.dedupFallbackCount
        = st.dedupFallbackCount + 1
    ∧ (applyEntity gw cfg now st cand).1.nodes
        = mkNode gw now st.nextUuid cand :: st.nodes
    ∧ (applyEntity gw cfg now st cand).2 = st.nextUuid := by
  have hres : resolveEntity gw cfg st cand = .fallbackNew := by
    unfold resolveEntity
    split
    next heq => exact absurd heq hsl
    next s ss heq =>
      rw [heq] at hfail
      rw [hfail]
  refine ⟨hres, ?_, ?_, ?_⟩ <;> simp [applyEntity, hres]

/-- C4: when the Temporal Conflict Resolver determines a previously valid
fact is superseded by a new fact, it sets that fact's `invalidAt` to exactly
the new fact's `validAt` and its `expiredAt` to the current system time; a
fact whose `invalidAt` is already set is never modified again; and when the
new and old fact have identical `validAt`, the most recently ingested edge is
authoritative (an old fact that is not older-ingested than the new one is
left untouched). -/
theorem conflict_resolver_invalidation (gw : Gateway) (now : Nat)
    (newE oldE : EntityEdge) (st : GraphState) (hmem : oldE ∈ st.edges) :
    (supersededBy gw newE oldE = true →
      { oldE with invalidAt := some newE.validAt, expiredAt := some now }
        ∈ (resolveConflicts gw now newE st).edges)
    ∧ (oldE.invalidAt.isSome = true →
        invalidateEdge gw now newE oldE = oldE
        ∧ oldE ∈ (resolveConflicts gw now newE st).edges)
    ∧ (oldE.validAt = newE.validAt → ¬ oldE.seq < newE.seq →
        invalidateEdge gw now newE oldE = oldE
        ∧ oldE ∈ (resolveConflicts gw now newE st).edges) := by
  refine ⟨?_, ?_, ?_⟩
  · intro h
    have heq : invalidateEdge gw now newE oldE
        = { oldE with invalidAt := some newE.validAt, expiredAt := some now } := by
      simp [invalidateEdge, h]
    have := List.mem_map_of_mem (invalidateEdge gw now newE) hmem
    rw [heq] at this
    exact this
  · intro h
    have hfalse : supersededBy gw newE oldE = false := by
      cases hinv : oldE.invalidAt with
      | none => rw [hinv] at h; cases h
      | some t => simp [supersededBy, hinv]
    have heq : invalidateEdge gw now newE oldE = oldE := by
      simp [invalidateEdge, hfalse]
    refine ⟨heq, ?_⟩
    have := List.mem_map_of_mem (invalidateEdge gw now newE) hmem
    rw [heq] at this
    exact this
  · intro hva hseq
    have htp : timePrecedes oldE newE = false := by
      simp [timePrecedes, hva, hseq]
    have hfalse : supersededBy gw newE oldE = false := by
      simp [supersededBy, htp]
    have heq : invalidateEdge gw now newE oldE = oldE := by
      simp [invalidateEdge, hfalse]
    refine ⟨heq, ?_⟩
    have := List.mem_map_of_mem (invalidateEdge gw now newE) hmem
    rw [heq] at this
    exact this

/-- C5: merging node `a` into node `b` rewrites every edge that referenced
`a` to reference `b` while preserving each edge's own identifier: after the
merge no edge dangles on `a`, the stored edge-identifier sequence is
unchanged, looking up any edge previously pointing at `a` resolves to `b`,
the absorbed identifier is no longer a live node, and the back-reference
recording the irreversible merge is present. -/
theorem merge_rewrites_edges (a b : Nat) (st : GraphState) (na : EntityNode)
    (e : EntityEdge)
    (hfind : st.nodes.find? (fun n => decide (n.uuid = a)) = some na)
    (hab : a ≠ b)
    (hget : getEdge st e.uuid = some e) :
    (∀ e2 ∈ (mergeNodes a b st).edges, e2.sourceId ≠ a ∧ e2.targetId ≠ a)
    ∧ (mergeNodes a b st).edges.map EntityEdge.uuid
        = st.edges.map EntityEdge.uuid
    ∧ getEdge (mergeNodes a b st) e.uuid = some (rewriteEndpoint a b e)
    ∧ (e.sourceId = a → (rewriteEndpoint a b e).sourceId = b)
    ∧ (e.targetId = a → (rewriteEndpoint a b e).targetId = b)
    ∧ (a, b) ∈ (mergeNodes a b st).merged
    ∧ (∀ n ∈ (mergeNodes a b st).nodes, n.uuid ≠ a) := by
  have hstep : mergeNodes a b st =
      { st with
        nodes := (st.nodes.filter (fun n => !decide (n.uuid = a))).map (fun n =>
          if n.uuid = b then
            { n with aliases := (n.aliases ++ na.aliases).dedup,
                     createdAt := min n.createdAt na.createdAt }
          else n),
        edges := st.edges.map (rewriteEndpoint a b),
        merged := (a, b) :: st.merged } := by
    unfold mergeNodes
    rw [hfind]
  refine ⟨?_, ?_, ?_, ?_, ?_, ?_, ?_⟩
  · intro e2 he2
    rw [hstep] at he2
    rcases List.mem_map.mp he2 with ⟨x, hx, rfl⟩
    constructor
    · show (if x.sourceId = a then b else x.sourceId) ≠ a
      split
      · exact fun hba => hab hba.symm
      · assumption
    · show (if x.targetId = a then b else x.targetId) ≠ a
      split
      · exact fun hba => hab hba.symm
      · assumption
  · rw [hstep]
    show (st.edges.map (rewriteEndpoint a b)).map EntityEdge.uuid = _
    rw [List.map_map]
    rfl
  · rw [hstep]
    show (st.edges.map (rewriteEndpoint a b)).find?
        (fun x => decide (x.uuid = e.uuid)) = _
    rw [List.find?_map]
    have hp : ((fun x => decide (x.uuid = e.uuid)) ∘ rewriteEndpoint a b)
        = fun x => decide (x.uuid = e.uuid) := rfl
    rw [hp]
    unfold getEdge at hget
    rw [hget]
    rfl
  · intro h
    show (if e.sourceId = a then b else e.sourceId) = b
    rw [if_pos h]
  · intro h
    show (if e.targetId = a then b else e.targetId) = b
    rw [if_pos h]
  · rw [hstep]
    exact List.mem_cons_self _ _
  · intro n hn
    rw [hstep] at hn
    rcases List.mem_map.mp hn with ⟨x, hx, rfl⟩
    have hxa : (!decide (x.uuid = a)) = true := (List.mem_filter.mp hx).2
    have : x.uuid ≠ a := by
      simpa using hxa
    split
    · exact this
    · exact this

/-- C6 (amended): after an EntityEdge is created it is never removed, and the
only fields an ingestion operation ever mutates are `invalidAt` and
`expiredAt`; a node-merge operation additionally rewrites the endpoint
identifiers of edges referencing the absorbed node, but under every
operation the edge's identifier, fact string, fact embedding, `validAt`,
producing episode and ingestion sequence survive unchanged — facts are
soft-invalidated, never physically deleted or rewritten. -/
theorem edge_frame_soft_invalidation (st : GraphState) (op : Op)
    (e : EntityEdge) (gw : Gateway) (cfg : DedupConfig) (now : Nat)
    (ep : EpisodeInput) (he : e ∈ st.edges) :
    (∃ e2 ∈ (applyOp st op).edges, sameFactCore e e2)
    ∧ (op = Op.ingest gw cfg now ep →
        ∃ e2 ∈ (applyOp st op).edges, sameCore e e2) := by
  constructor
  · cases op with
    | ingest gw2 cfg2 now2 ep2 =>
      obtain ⟨e2, he2, hcore⟩ := runIngestion_frame gw2 cfg2 now2 ep2 st e he
      exact ⟨e2, he2, sameCore_to_factCore hcore⟩
    | mergeOp a b => exact mergeNodes_frame a b st e he
  · intro hop
    subst hop
    exact runIngestion_frame gw cfg now ep st e he

/-- The concrete state used to refute the unamended C6 claim: one edge from
node 1 to node 3, with nodes 1 and 2 live. -/
def edgeC6 : EntityEdge := ⟨10, 1, 3, "f", [], 0, none, none, 0, 10⟩

def stateC6 : GraphState :=
  ⟨[], [⟨1, "a", [], "", [], [], 0⟩, ⟨2, "b", [], "", [], [], 0⟩],
    [edgeC6], [], 0, 11⟩

/-- C6 counterexample: the claim as stated — endpoints remain unchanged by
every subsequent operation — is false: the node-merge operation (required by
the section 3 invariant to rewrite edges referencing the absorbed
identifier) mutates the stored edge's source endpoint from 1 to 2. -/
theorem edge_endpoints_mutated_by_merge :
    stateC6.edges.map EntityEdge.sourceId = [1]
    ∧ (applyOp stateC6 (Op.mergeOp 1 2)).edges.map EntityEdge.sourceId = [2]
    ∧ (applyOp stateC6 (Op.mergeOp 1 2)).edges.map EntityEdge.uuid
        = stateC6.edges.map EntityEdge.uuid := by
  refine ⟨rfl, ?_, ?_⟩ <;> rfl

/-! ## The bi-temporal interval invariant (C7) -/

/-- Modelled from the spec: the section 3 invariant on one fact:
`invalidAt`, when set, is at or after `validAt`. -/
def edgeWF (e : EntityEdge) : Bool :=
  match e.invalidAt with
  | none => true
  | some t => decide (e.validAt ≤ t)

/-- Modelled from the spec: the section 3 invariant over the whole graph. -/
def graphWF (st : GraphState) : Bool := st.edges.all edgeWF

theorem edgeWF_invalidateEdge (gw : Gateway) (now : Nat) (newE e : EntityEdge)
    (h : edgeWF e = true) : edgeWF (invalidateEdge gw now newE e) = true := by
  unfold invalidateEdge
  split
  next hs =>
    unfold supersededBy at hs
    have htp : timePrecedes e newE = true := by
      repeat rw [Bool.and_eq_true] at hs
      exact hs.2
    unfold timePrecedes at htp
    rw [Bool.or_eq_true, Bool.and_eq_true] at htp
    simp only [decide_eq_true_eq] at htp
    show (match (some newE.validAt : Option Nat) with
      | none => true
      | some t => decide (e.validAt ≤ t)) = true
    simp only [decide_eq_true_eq]
    omega
  · exact h

theorem graphWF_resolveConflicts (gw : Gateway) (now : Nat)
    (newE : EntityEdge) (st : GraphState) (h : graphWF st = true) :
    graphWF (resolveConflicts gw now newE st) = true := by
  unfold graphWF at h ⊢
  rw [List.all_eq_true] at h ⊢
  intro x hx
  rcases List.mem_map.mp hx with ⟨y, hy, rfl⟩
  exact edgeWF_invalidateEdge gw now newE y (h y hy)

theorem edgeWF_mkEdge (gw : Gateway) (ep : EpisodeInput) (uuid s t : Nat)
    (c : CandidateEdge) : edgeWF (mkEdge gw ep uuid s t c) = true := rfl

theorem graphWF_ingestEdges (gw : Gateway) (ep : EpisodeInput) (now : Nat)
    (m : List (String × Nat)) (cs : List CandidateEdge) (st : GraphState)
    (h : graphWF st = true) :
    graphWF (ingestEdges gw ep now m cs st) = true := by
  induction cs generalizing st with
  | nil => exact h
  | cons c cs ih =>
    show graphWF (match lookupId m c.sourceName, lookupId m c.targetName with
      | some s, some t =>
        let e0 := mkEdge gw ep st.nextUuid s t c
        let st1 := resolveConflicts gw now e0 st
        ingestEdges gw ep now m cs
          { st1 with edges := e0 :: st1.edges, nextUuid := st1.nextUuid + 1 }
      | _, _ => ingestEdges gw ep now m cs st) = true
    split
    · next s t hs ht =>
      apply ih
      unfold graphWF
      rw [List.all_eq_true]
      intro x hx
      rcases List.mem_cons.mp hx with hx | hx
      · rw [hx]; exact edgeWF_mkEdge gw ep st.nextUuid s t c
      · have h1 := graphWF_resolveConflicts gw now
          (mkEdge gw ep st.nextUuid s t c) st h
        unfold graphWF at h1
        rw [List.all_eq_true] at h1
        exact h1 x hx
    · exact ih st h

theorem graphWF_ingestEntities (gw : Gateway) (cfg : DedupConfig) (now : Nat)
    (cs : List CandidateEntity) (st : GraphState) (h : graphWF st = true) :
    graphWF (ingestEntities gw cfg now cs st).1 = true := by
  unfold graphWF at h ⊢
  rw [ingestEntities_edges]
  exact h

theorem graphWF_runIngestion (gw : Gateway) (cfg : DedupConfig) (now : Nat)
    (ep : EpisodeInput) (st : GraphState) (h : graphWF st = true) :
    graphWF (runIngestion gw cfg now ep st).1 = true := by
  unfold runIngestion
  split
  · exact h
  · split
    · exact h
    · split
      · unfold stageEpisode
        apply graphWF_ingestEdges
        apply graphWF_ingestEntities
        exact h
      · exact h

theorem graphWF_mergeNodes (a b : Nat) (st : GraphState)
    (h : graphWF st = true) : graphWF (mergeNodes a b st) = true := by
  unfold mergeNodes
  split
  · exact h
  · unfold graphWF at h ⊢
    rw [List.all_eq_true] at h ⊢
    intro x hx
    rcases List.mem_map.mp hx with ⟨y, hy, rfl⟩
    exact h y hy

theorem graphWF_applyOp (st : GraphState) (op : Op) (h : graphWF st = true) :
    graphWF (applyOp st op) = true := by
  cases op with
  | ingest gw cfg now ep => exact graphWF_runIngestion gw cfg now ep st h
  | mergeOp a b => exact graphWF_mergeNodes a b st h

theorem graphWF_foldl (ops : List Op) (st : GraphState)
    (h : graphWF st = true) : graphWF (ops.foldl applyOp st) = true := by
  induction ops generalizing st with
  | nil => exact h
  | cons op ops ih => exact ih (applyOp st op) (graphWF_applyOp st op h)

/-- C7: in every reachable graph state every EntityEdge with a non-null
`invalidAt` has `invalidAt ≥ validAt` (creation starts facts with `invalidAt`
unset and `validAt` defaulting to the episode reference time, and
invalidation only ever moves `invalidAt` to a superseding fact's later or
equal `validAt`); moreover every single operation preserves the invariant
from any state already satisfying it. -/
theorem temporal_interval_invariant (ops : List Op) (st : GraphState)
    (op : Op) (h : graphWF st = true) :
    graphWF (applyOps ops) = true ∧ graphWF (applyOp st op) = true :=
  ⟨graphWF_foldl ops initialState rfl, graphWF_applyOp st op h⟩

/-- C2: an episode whose ingestion fails at any step before commit —
terminal extraction failure of entities or of edges, or a terminal storage
failure — leaves the graph state observable by subsequent reads exactly equal
to the pre-ingestion state (no partial episode record, node or edge write),
and the failure surfaces as a failed ingestion result carrying the episode
identifier and the reason. -/
theorem ingestion_failure_is_atomic (gw : Gateway) (cfg : DedupConfig)
    (now : Nat) (ep : EpisodeInput) (st st2 : GraphState) (f : IngestFailure)
    (h : runIngestion gw cfg now ep st = (st2, some f)) :
    st2 = st ∧ f.episodeId = ep.uuid
    ∧ (f.reason = "ExtractionError" ∨ f.reason = "StorageConflict") := by
  unfold runIngestion at h
  split at h
  · injection h with hst hf
    injection hf with hf
    subst hf
    exact ⟨hst.symm, rfl, Or.inl rfl⟩
  · split at h
    · injection h with hst hf
      injection hf with hf
      subst hf
      exact ⟨hst.symm, rfl, Or.inl rfl⟩
    · split at h
      · injection h with hst hf
        cases hf
      · injection h with hst hf
        injection hf with hf
        subst hf
        exact ⟨hst.symm, rfl, Or.inr rfl⟩

/-! ## Node-count accounting for repeated ingestion (C8) -/

/-- Modelled from the spec: the sequence of Deduplication Resolver decisions
taken while resolving a candidate list in order, each against the state the
previous candidates produced. -/
def resolutionTrace (gw : Gateway) (cfg : DedupConfig) (now : Nat) :
    List CandidateEntity → GraphState → List EntityResolution
  | [], _ => []
  | c :: cs, st =>
    resolveEntity gw cfg st c
      :: resolutionTrace gw cfg now cs (applyEntity gw cfg now st c).1

/-- The number of candidates the resolver classifies as genuinely new
(anything but a merge) during one entity-resolution pass. -/
def newEntityCount (gw : Gateway) (cfg : DedupConfig) (now : Nat)
    (cs : List CandidateEntity) (st : GraphState) : Nat :=
  ((resolutionTrace gw cfg now cs st).filter
    (fun r => ! r.isMerge)).length

theorem applyEntity_nodes_length (gw : Gateway) (cfg : DedupConfig)
    (now : Nat) (st : GraphState) (c : CandidateEntity) :
    (applyEntity gw cfg now st c).1.nodes.length
      = st.nodes.length
        + (if (resolveEntity gw cfg st c).isMerge then 0 else 1) := by
  unfold applyEntity
  cases hres : resolveEntity gw cfg st c <;>
    simp [EntityResolution.isMerge]

theorem length_resolutionTrace (gw : Gateway) (cfg : DedupConfig) (now : Nat)
    (cs : List CandidateEntity) (st : GraphState) :
    (resolutionTrace gw cfg now cs st).length = cs.length := by
  induction cs generalizing st with
  | nil => rfl
  | cons c cs ih => simp [resolutionTrace, ih]

theorem ingestEntities_nodes_length (gw : Gateway) (cfg : DedupConfig)
    (now : Nat) (cs : List CandidateEntity) (st : GraphState) :
    (ingestEntities gw cfg now cs st).1.nodes.length
      = st.nodes.length + newEntityCount gw cfg now cs st := by
  induction cs generalizing st with
  | nil => simp [ingestEntities, newEntityCount, resolutionTrace]
  | cons c cs ih =>
    show (ingestEntities gw cfg now cs (applyEntity gw cfg now st c).1).1.nodes.length
        = _
    rw [ih, applyEntity_nodes_length]
    have hcount : newEntityCount gw cfg now (c :: cs) st
        = (if (resolveEntity gw cfg st c).isMerge then 0 else 1)
          + newEntityCount gw cfg now cs (applyEntity gw cfg now st c).1 := by
      unfold newEntityCount
      rw [show resolutionTrace gw cfg now (c :: cs) st
          = resolveEntity gw cfg st c
            :: resolutionTrace gw cfg now cs (applyEntity gw cfg now st c).1
          from rfl]
      rw [List.filter_cons]
      cases hm : (resolveEntity gw cfg st c).isMerge <;>
        (first | (simp [hm]; omega) | simp [hm])
    rw [hcount]
    omega

/-- C8: resolving the candidate entities of an episode increases the node
count by exactly the number of candidates the Deduplication Resolver
classifies as genuinely new — hence never by more than the candidate count —
and in the fully-duplicate case (every resolution decision is a merge, as
happens when the same content is re-ingested with above-floor similarity and
gateway-confirmed duplicates) the node count does not increase at all. -/
theorem reingestion_node_count (gw : Gateway) (cfg : DedupConfig) (now : Nat)
    (cands : List CandidateEntity) (st : GraphState) :
    (ingestEntities gw cfg now cands st).1.nodes.length
      = st.nodes.length + newEntityCount gw cfg now cands st
    ∧ newEntityCount gw cfg now cands st ≤ cands.length
    ∧ ((resolutionTrace gw cfg now cands st).all EntityResolution.isMerge = true →
        (ingestEntities gw cfg now cands st).1.nodes.length
          = st.nodes.length) := by
  refine ⟨ingestEntities_nodes_length gw cfg now cands st, ?_, ?_⟩
  · unfold newEntityCount
    exact le_trans (List.length_filter_le _ _)
      (le_of_eq (length_resolutionTrace gw cfg now cands st))
  · intro hall
    rw [ingestEntities_nodes_length]
    have hzero : newEntityCount gw cfg now cands st = 0 := by
      unfold newEntityCount
      rw [List.length_eq_zero, List.filter_eq_nil_iff]
      intro r hr
      have := List.all_eq_true.mp hall r hr
      simp [this]
    omega

/-! ## Search lemmas (C1, C10) -/

theorem search_mem_filter {so : SearchOracle} {st : GraphState} {q : String}
    {center : Option Nat} {n : Nat} {asOf : Option Nat} {now : Nat}
    {e : EntityEdge} (h : e ∈ search so st q center n asOf now) :
    e ∈ st.edges ∧ so.relevant q e = true
    ∧ temporallyLive (asOf.getD now) e = true := by
  unfold search rankEdges at h
  have h1 := List.mem_of_mem_take h
  rw [mem_rankSort] at h1
  have h2 := List.mem_filter.mp h1
  have h3 := h2.2
  rw [Bool.and_eq_true] at h3
  exact ⟨h2.1, h3.1, h3.2⟩

theorem search_complete {so : SearchOracle} {st : GraphState} {q : String}
    {center : Option Nat} {n : Nat} {asOf : Option Nat} {now : Nat}
    {e : EntityEdge} (hn : st.edges.length ≤ n) (he : e ∈ st.edges)
    (hrel : so.relevant q e = true)
    (hlive : temporallyLive (asOf.getD now) e = true) :
    e ∈ search so st q center n asOf now := by
  unfold search rankEdges
  rw [List.take_of_length_le]
  · rw [mem_rankSort]
    exact List.mem_filter.mpr ⟨he, by rw [hrel, hlive]; rfl⟩
  · rw [length_rankSort]
    exact le_trans (List.length_filter_le _ _) hn

/-- C1: for facts F1 and F2 between the same node pair where F2 supersedes F1
(F1 carries `validAt = t1`, its `invalidAt` was set to F2's `validAt = t2`,
and F2 is currently valid), a search whose as-of time lies in [t1, t2)
returns F1 and not F2, a search with as-of time at or after t2 returns F2 and
not F1, and a search with no as-of time supplied behaves exactly as a search
as-of the current time. -/
theorem temporal_search_correctness (so : SearchOracle) (st : GraphState)
    (q : String) (center : Option Nat) (n : Nat) (F1 F2 : EntityEdge)
    (t1 t2 asOf now : Nat)
    (h1 : F1 ∈ st.edges) (h2 : F2 ∈ st.edges)
    (hv1 : F1.validAt = t1) (hi1 : F1.invalidAt = some t2)
    (hv2 : F2.validAt = t2) (hi2 : F2.invalidAt = none)
    (hr1 : so.relevant q F1 = true) (hr2 : so.relevant q F2 = true)
    (hn : st.edges.length ≤ n) :
    (t1 ≤ asOf → asOf < t2 →
      F1 ∈ search so st q center n (some asOf) now
      ∧ F2 ∉ search so st q center n (some asOf) now)
    ∧ (t2 ≤ asOf →
      F2 ∈ search so st q center n (some asOf) now
      ∧ F1 ∉ search so st q center n (some asOf) now)
    ∧ search so st q center n none now = search so st q center n (some now) now := by
  refine ⟨?_, ?_, rfl⟩
  · intro ha1 ha2
    constructor
    · apply search_complete hn h1 hr1
      show temporallyLive asOf F1 = true
      unfold temporallyLive
      rw [hv1, hi1]
      simp only [Bool.and_eq_true, decide_eq_true_eq]
      exact ⟨ha1, ha2⟩
    · intro hc
      obtain ⟨-, -, hlive⟩ := search_mem_filter hc
      rw [Option.getD_some] at hlive
      unfold temporallyLive at hlive
      rw [hv2] at hlive
      rw [Bool.and_eq_true, decide_eq_true_eq] at hlive
      omega
  · intro ha
    constructor
    · apply search_complete hn h2 hr2
      show temporallyLive asOf F2 = true
      unfold temporallyLive
      rw [hv2, hi2]
      simp only [Bool.and_eq_true, decide_eq_true_eq]
      exact ⟨ha, trivial⟩
    · intro hc
      obtain ⟨-, -, hlive⟩ := search_mem_filter hc
      rw [Option.getD_some] at hlive
      unfold temporallyLive at hlive
      rw [hv1, hi1] at hlive
      rw [Bool.and_eq_true] at hlive
      have hlt := hlive.2
      simp only [decide_eq_true_eq] at hlt
      omega

/-- C10: for every call to the public search operation — any query text, any
optional center node, any result limit, any as-of time — the returned value
is a list of stored EntityEdge records (at most the requested number), and
mapping the string-valued `fact` field over the whole result and joining it,
exactly as the notebook's `edges_to_facts_string` does, is a total operation
requiring no further lookup. -/
theorem search_result_fact_mapping (so : SearchOracle) (st : GraphState)
    (q : String) (center : Option Nat) (n : Nat) (asOf : Option Nat)
    (now : Nat) :
    (∀ e ∈ search so st q center n asOf now, e ∈ st.edges)
    ∧ (search so st q center n asOf now).length ≤ n
    ∧ edges_to_facts_string (search so st q center n asOf now)
        = "-" ++ String.intercalate "\n- "
            ((search so st q center n asOf now).map (fun edge => edge.fact)) := by
  refine ⟨?_, ?_, rfl⟩
  · intro e he
    exact (search_mem_filter he).1
  · unfold search
    exact List.length_take_le n _

/-! ## Concrete witnesses -/

/-- Concrete gateway for the C9 witness: disambiguation always fails. -/
def gwC9 : Gateway :=
  ⟨fun _ => [], fun _ => none, fun _ => none, fun _ _ => 90, fun _ _ => none,
   fun s => s, fun _ _ => false, fun _ => true⟩

def cfgC9 : DedupConfig := ⟨80, 3⟩

def stC9 : GraphState :=
  ⟨[], [⟨1, "John Smith", [], "", ["Person"], [5], 0⟩], [], [], 0, 2⟩

def candC9 : CandidateEntity := ⟨"Jon Smith", "Person", []⟩

theorem dedup_fallback_on_gateway_failure_witness :
    shortlist gwC9 cfgC9 candC9 stC9.nodes ≠ []
    ∧ (resolveEntity gwC9 cfgC9 stC9 candC9 = .fallbackNew
      ∧ (applyEntity gwC9 cfgC9 7 stC9 candC9).1.dedupFallbackCount
          = stC9.dedupFallbackCount + 1
      ∧ (applyEntity gwC9 cfgC9 7 stC9 candC9).1.nodes
          = mkNode gwC9 7 stC9.nextUuid candC9 :: stC9.nodes
      ∧ (applyEntity gwC9 cfgC9 7 stC9 candC9).2 = stC9.nextUuid) :=
  ⟨by decide,
    dedup_fallback_on_gateway_failure gwC9 cfgC9 7 stC9 candC9
      (by decide) (by decide)⟩

/-- Concrete gateway for the C4 witness: every fact shares one slot and the
new fact supersedes the old one. -/
def gwC4 : Gateway :=
  ⟨fun _ => [], fun _ => none, fun _ => none, fun _ _ => 0, fun _ _ => none,
   fun _ => "job", fun _ _ => true, fun _ => true⟩

def oldC4 : EntityEdge := ⟨1, 1, 2, "Alice joined Acme", [], 1, none, none, 1, 1⟩

def newC4 : EntityEdge := ⟨9, 1, 2, "Alice left Acme", [], 5, none, none, 2, 9⟩

def stC4 : GraphState := ⟨[], [], [oldC4], [], 0, 10⟩

theorem conflict_resolver_invalidation_witness :
    oldC4 ∈ stC4.edges
    ∧ ((supersededBy gwC4 newC4 oldC4 = true →
        { oldC4 with invalidAt := some newC4.validAt, expiredAt := some 7 }
          ∈ (resolveConflicts gwC4 7 newC4 stC4).edges)
      ∧ (oldC4.invalidAt.isSome = true →
          invalidateEdge gwC4 7 newC4 oldC4 = oldC4
          ∧ oldC4 ∈ (resolveConflicts gwC4 7 newC4 stC4).edges)
      ∧ (oldC4.validAt = newC4.validAt → ¬ oldC4.seq < newC4.seq →
          invalidateEdge gwC4 7 newC4 oldC4 = oldC4
          ∧ oldC4 ∈ (resolveConflicts gwC4 7 newC4 stC4).edges)) :=
  ⟨by decide,
    conflict_resolver_invalidation gwC4 7 newC4 oldC4 stC4 (by decide)⟩

def nodeA5 : EntityNode := ⟨1, "a", [], "", [], [], 0⟩

def edgeC5 : EntityEdge := ⟨10, 1, 2, "f", [], 0, none, none, 0, 10⟩

def stC5 : GraphState :=
  ⟨[], [nodeA5, ⟨2, "b", [], "", [], [], 0⟩], [edgeC5], [], 0, 11⟩

theorem merge_rewrites_edges_witness :
    stC5.nodes.find? (fun n => decide (n.uuid = 1)) = some nodeA5
    ∧ (1 : Nat) ≠ 2
    ∧ getEdge stC5 edgeC5.uuid = some edgeC5
    ∧ ((∀ e2 ∈ (mergeNodes 1 2 stC5).edges, e2.sourceId ≠ 1 ∧ e2.targetId ≠ 1)
      ∧ (mergeNodes 1 2 stC5).edges.map EntityEdge.uuid
          = stC5.edges.map EntityEdge.uuid
      ∧ getEdge (mergeNodes 1 2 stC5) edgeC5.uuid
          = some (rewriteEndpoint 1 2 edgeC5)
      ∧ (edgeC5.sourceId = 1 → (rewriteEndpoint 1 2 edgeC5).sourceId = 2)
      ∧ (edgeC5.targetId = 1 → (rewriteEndpoint 1 2 edgeC5).targetId = 2)
      ∧ (1, 2) ∈ (mergeNodes 1 2 stC5).merged
      ∧ (∀ n ∈ (mergeNodes 1 2 stC5).nodes, n.uuid ≠ 1)) :=
  ⟨by decide, by decide, by decide,
    merge_rewrites_edges 1 2 stC5 nodeA5 edgeC5 (by decide) (by decide)
      (by decide)⟩

/-- Concrete gateway for the C6 witness: extraction succeeds with empty
candidate lists. -/
def gwC6 : Gateway :=
  ⟨fun _ => [], fun _ => some [], fun _ => some [], fun _ _ => 0,
   fun _ _ => none, fun _ => "", fun _ _ => false, fun _ => true⟩

def cfgC6 : DedupConfig := ⟨80, 3⟩

def epC6 : EpisodeInput := ⟨3, "ep", "body", "src", 4⟩

def edgeF6 : EntityEdge := ⟨1, 1, 2, "g", [], 0, none, none, 0, 1⟩

def stF6 : GraphState := ⟨[], [], [edgeF6], [], 0, 5⟩

theorem edge_frame_soft_invalidation_witness :
    edgeF6 ∈ stF6.edges
    ∧ ((∃ e2 ∈ (applyOp stF6 (Op.ingest gwC6 cfgC6 5 epC6)).edges,
          sameFactCore edgeF6 e2)
      ∧ (Op.ingest gwC6 cfgC6 5 epC6 = Op.ingest gwC6 cfgC6 5 epC6 →
          ∃ e2 ∈ (applyOp stF6 (Op.ingest gwC6 cfgC6 5 epC6)).edges,
            sameCore edgeF6 e2)) :=
  ⟨by decide,
    edge_frame_soft_invalidation stF6 (Op.ingest gwC6 cfgC6 5 epC6) edgeF6
      gwC6 cfgC6 5 epC6 (by decide)⟩

theorem temporal_interval_invariant_witness :
    graphWF initialState = true
    ∧ (graphWF (applyOps [Op.ingest gwC6 cfgC6 5 epC6, Op.mergeOp 1 2]) = true
      ∧ graphWF (applyOp initialState (Op.mergeOp 1 2)) = true) :=
  ⟨by decide,
    temporal_interval_invariant [Op.ingest gwC6 cfgC6 5 epC6, Op.mergeOp 1 2]
      initialState (Op.mergeOp 1 2) (by decide)⟩

/-- Concrete gateway for the C2 witness: entity extraction fails
terminally. -/
def gwC2 : Gateway :=
  ⟨fun _ => [], fun _ => none, fun _ => some [], fun _ _ => 0, fun _ _ => none,
   fun _ => "", fun _ _ => false, fun _ => true⟩

def epC2 : EpisodeInput := ⟨7, "ep", "body", "src", 4⟩

def stC2 : GraphState := ⟨[], [], [], [], 0, 1⟩

theorem ingestion_failure_is_atomic_witness :
    runIngestion gwC2 cfgC6 5 epC2 stC2
        = (stC2, some (⟨7, "ExtractionError"⟩ : IngestFailure))
    ∧ (stC2 = stC2
      ∧ (⟨7, "ExtractionError"⟩ : IngestFailure).episodeId = epC2.uuid
      ∧ ((⟨7, "ExtractionError"⟩ : IngestFailure).reason = "ExtractionError"
        ∨ (⟨7, "ExtractionError"⟩ : IngestFailure).reason = "StorageConflict")) :=
  ⟨by decide,
    ingestion_failure_is_atomic gwC2 cfgC6 5 epC2 stC2 stC2
      ⟨7, "ExtractionError"⟩ (by decide)⟩

/-- Concrete search oracle for the C1 witness: every edge is relevant and all
fused scores agree. -/
def soC1 : SearchOracle := ⟨fun _ _ => true, fun _ _ _ => 0⟩

def f1C1 : EntityEdge := ⟨1, 1, 2, "Alice joined Acme", [], 1, some 3, some 9, 1, 1⟩

def f2C1 : EntityEdge := ⟨2, 1, 2, "Alice left Acme", [], 3, none, none, 2, 2⟩

def stC1 : GraphState := ⟨[], [], [f1C1, f2C1], [], 0, 3⟩

theorem temporal_search_correctness_witness :
    f1C1 ∈ stC1.edges
    ∧ f2C1 ∈ stC1.edges
    ∧ stC1.edges.length ≤ 2
    ∧ ((1 ≤ 2 → 2 < 3 →
        f1C1 ∈ search soC1 stC1 "Alice" none 2 (some 2) 7
        ∧ f2C1 ∉ search soC1 stC1 "Alice" none 2 (some 2) 7)
      ∧ (3 ≤ 2 →
        f2C1 ∈ search soC1 stC1 "Alice" none 2 (some 2) 7
        ∧ f1C1 ∉ search soC1 stC1 "Alice" none 2 (some 2) 7)
      ∧ search soC1 stC1 "Alice" none 2 none 7
          = search soC1 stC1 "Alice" none 2 (some 7) 7) :=
  ⟨by decide, by decide, by decide,
    temporal_search_correctness soC1 stC1 "Alice" none 2 f1C1 f2C1 1 3 2 7
      (by decide) (by decide) (by decide) (by decide) (by decide) (by decide)
      (by decide) (by decide) (by decide)⟩

end Graphiti
